import Mathlib

/-!
Verification of healthzd: a shallow embedding of the probe debounce state
machine (src/probe.rs, `Probe::watch`), the per-target orchestration
(src/main.rs, the startup gate and the liveness/readiness branches), the
HTTP aggregation endpoints (src/main.rs, the `/liveness` and `/readiness`
routes), and probe deserialization (src/probe/de.rs).

Probe attempts are I/O; a poll outcome is abstracted as a `Bool`
(`true` = the attempt returned `Ok`, `false` = error or timeout), and a
running watcher is the function from its finite list of poll outcomes so
far to the list of per-poll emissions. Watcher emission streams consumed
by the orchestrator are likewise abstracted as finite lists of `Status`
values (the prefix emitted so far).
-/

namespace Healthzd

/-- Confirmed transition emitted by a probe watcher
(src/probe.rs, `enum Status`). -/
inductive Status where
  | Success
  | Failure
deriving DecidableEq, Repr

/-- Debounce counters carried through the `futures::stream::unfold` loop of
`Probe::watch` (src/probe.rs, `struct State`; the `deadline` field is
modelled separately by `LoopState`). -/
structure WatchState where
  success : Nat
  failure : Nat
deriving DecidableEq, Repr

/-- One iteration of the loop body of `Probe::watch` (src/probe.rs lines
56-81): on a successful attempt `success += 1; failure = 0`, on a failed
attempt `success = 0; failure += 1`; then emit `Success` if
`success == success_threshold`, else emit `Failure` if
`failure == failure_threshold`, else emit nothing. Returns the updated
counters and the optional emission. -/
def pollStep (st ft : Nat) (s : WatchState) (ok : Bool) :
    WatchState × Option Status :=
  let s1 : WatchState :=
    if ok then ⟨s.success + 1, 0⟩ else ⟨0, s.failure + 1⟩
  if s1.success = st then (s1, some Status.Success)
  else if s1.failure = ft then (s1, some Status.Failure)
  else (s1, none)

/-- Per-poll emissions of `Probe::watch` over a finite list of poll
outcomes, threading the counters through `pollStep`; entry `i` is the
emission (or silence) produced right after poll `i`. -/
def watchRun (st ft : Nat) : WatchState → List Bool → List (Option Status)
  | _, [] => []
  | s, ok :: rest =>
    let r := pollStep st ft s ok
    r.2 :: watchRun st ft r.1 rest

/-- Counters after a list of polls starting from state `s`. -/
def stateAfter (st ft : Nat) (s : WatchState) : List Bool → WatchState
  | [] => s
  | ok :: rest => stateAfter st ft (pollStep st ft s ok).1 rest

/-- The `Status` values the watcher stream actually yields over a finite
list of poll outcomes: the silent polls dropped from `watchRun` (the
`unfold` loop in src/probe.rs keeps iterating without yielding until a
threshold is hit). -/
def watchEmits (st ft : Nat) (s : WatchState) (outs : List Bool) :
    List Status :=
  (watchRun st ft s outs).filterMap id

/-- Strictly alternating outcome sequence of length `n`, whose first
outcome is `b`. -/
def altOutcomes : Bool → Nat → List Bool
  | _, 0 => []
  | b, n + 1 => b :: altOutcomes (!b) n

theorem watchRun_append (st ft : Nat) (s : WatchState) (xs ys : List Bool) :
    watchRun st ft s (xs ++ ys)
      = watchRun st ft s xs ++ watchRun st ft (stateAfter st ft s xs) ys := by
  induction xs generalizing s with
  | nil => simp [watchRun, stateAfter]
  | cons x xs ih => simp [watchRun, stateAfter, ih]

theorem pollStep_fst (st ft : Nat) (s : WatchState) (ok : Bool) :
    (pollStep st ft s ok).1
      = if ok then WatchState.mk (s.success + 1) 0
        else WatchState.mk 0 (s.failure + 1) := by
  cases ok <;> simp only [pollStep, Bool.false_eq_true, if_false, if_true] <;>
    split_ifs with h1 h2 <;> simp_all

theorem pollStep_snd_success (st ft : Nat) (s : WatchState) (ok : Bool) :
    (pollStep st ft s ok).2 = some Status.Success
      ↔ (pollStep st ft s ok).1.success = st := by
  cases ok <;> simp only [pollStep, Bool.false_eq_true, if_false, if_true] <;>
    split_ifs with h1 h2 <;> simp_all

theorem pollStep_snd_failure (st ft : Nat) (hst : 1 ≤ st) (hft : 1 ≤ ft)
    (s : WatchState) (ok : Bool) :
    (pollStep st ft s ok).2 = some Status.Failure
      ↔ (pollStep st ft s ok).1.failure = ft := by
  cases ok <;> simp only [pollStep, Bool.false_eq_true, if_false, if_true] <;>
    split_ifs with h1 h2 <;> simp_all <;> omega

theorem pollStep_snd_none (st ft : Nat) (s : WatchState) (ok : Bool) :
    (pollStep st ft s ok).2 = none
      ↔ (pollStep st ft s ok).1.success ≠ st
        ∧ (pollStep st ft s ok).1.failure ≠ ft := by
  cases ok <;> simp only [pollStep, Bool.false_eq_true, if_false, if_true] <;>
    split_ifs with h1 h2 <;> simp_all

/-- C1: for every probe (with the data model's `success_threshold ≥ 1`,
`failure_threshold ≥ 1`) and every sequence of poll outcomes, the watcher
emits `Success` exactly at a poll after which the consecutive-success
counter equals `success_threshold`, emits `Failure` exactly at a poll
after which the consecutive-failure counter equals `failure_threshold`,
and emits nothing at any other poll; each poll increments the counter
matching its outcome and resets the opposite counter to zero. The poll at
position `|xs|` of the sequence `xs ++ ok :: ys` runs `pollStep` at the
counters accumulated over `xs`. -/
theorem probe_watch_debounce (st ft : Nat) (hst : 1 ≤ st) (hft : 1 ≤ ft)
    (s : WatchState) (ok : Bool) (xs ys : List Bool) :
    (watchRun st ft s (xs ++ ok :: ys)
        = watchRun st ft s xs
          ++ (pollStep st ft (stateAfter st ft s xs) ok).2
            :: watchRun st ft (pollStep st ft (stateAfter st ft s xs) ok).1 ys)
    ∧ ((pollStep st ft s ok).1
        = if ok then WatchState.mk (s.success + 1) 0
          else WatchState.mk 0 (s.failure + 1))
    ∧ ((pollStep st ft s ok).2 = some Status.Success
        ↔ (pollStep st ft s ok).1.success = st)
    ∧ ((pollStep st ft s ok).2 = some Status.Failure
        ↔ (pollStep st ft s ok).1.failure = ft)
    ∧ ((pollStep st ft s ok).2 = none
        ↔ (pollStep st ft s ok).1.success ≠ st
          ∧ (pollStep st ft s ok).1.failure ≠ ft) := by
  refine ⟨?_, pollStep_fst st ft s ok,
    pollStep_snd_success st ft s ok,
    pollStep_snd_failure st ft hst hft s ok,
    pollStep_snd_none st ft s ok⟩
  rw [watchRun_append]
  rfl

/-- Witness for `probe_watch_debounce` at thresholds 2/2, counters (1, 0),
a successful poll, preceded by one poll and followed by one poll. -/
theorem probe_watch_debounce_witness :
    (pollStep 2 2 ⟨1, 0⟩ true).2 = some Status.Success
      ↔ (pollStep 2 2 ⟨1, 0⟩ true).1.success = 2 :=
  (probe_watch_debounce 2 2 (by decide) (by decide) ⟨1, 0⟩ true
    [true] [false]).2.2.1

theorem watchRun_alt_silent (st ft : Nat) (hst : 1 < st) (hft : 1 < ft) :
    ∀ (n : Nat) (b : Bool) (s : WatchState),
      (b = true → s.success = 0) → (b = false → s.failure = 0) →
      ∀ e ∈ watchRun st ft s (altOutcomes b n), e = none := by
  intro n
  induction n with
  | zero => intro b s _ _ e he; simp [altOutcomes, watchRun] at he
  | succ n ih =>
    intro b s h1 h0 e he
    simp only [altOutcomes, watchRun, List.mem_cons] at he
    rcases he with he | he
    · subst he
      rw [pollStep_snd_none, pollStep_fst]
      cases b with
      | true =>
        have hs := h1 rfl
        simp only [if_true, hs]
        constructor <;> simp <;> omega
      | false =>
        have hf := h0 rfl
        simp only [Bool.false_eq_true, if_false, hf]
        constructor <;> simp <;> omega
    · exact ih (!b) (pollStep st ft s b).1
        (by intro hb; rw [pollStep_fst]; cases b <;> simp_all)
        (by intro hb; rw [pollStep_fst]; cases b <;> simp_all)
        e he

/-- C7: for every probe with `success_threshold > 1` and
`failure_threshold > 1` and every strictly alternating outcome sequence
of any length (starting with either outcome), the watcher stream emits no
`Status` at all. -/
theorem flap_suppression (st ft : Nat) (hst : 1 < st) (hft : 1 < ft)
    (b : Bool) (n : Nat) :
    watchEmits st ft ⟨0, 0⟩ (altOutcomes b n) = [] := by
  have h := watchRun_alt_silent st ft hst hft n b ⟨0, 0⟩
    (by intro _; rfl) (by intro _; rfl)
  unfold watchEmits
  rw [List.filterMap_eq_nil_iff]
  intro e he
  rw [h e he]
  rfl

/-- Witness for `flap_suppression` at thresholds 2/3 on the alternating
sequence of length 6 starting with a success. -/
theorem flap_suppression_witness :
    watchEmits 2 3 ⟨0, 0⟩ (altOutcomes true 6) = [] :=
  flap_suppression 2 3 (by decide) (by decide) true 6

/-- Per-target status flags (src/main.rs, `struct Status`); the atomic
booleans are modelled as plain booleans since each has a single writer. -/
structure TargetStatus where
  liveness : Bool
  readiness : Bool
deriving DecidableEq, Repr

/-- Initial flags (src/main.rs, `impl Default for Status`): `liveness`
starts `true`, `readiness` starts `false`. -/
def TargetStatus.initial : TargetStatus := ⟨true, false⟩

/-- One target's configuration, with each configured probe abstracted by
the finite list of `Status` values its watcher emits while consumed
(src/main.rs, `struct Probe`: the optional `startup_probe`,
`liveness_probe` and `readiness_probe`). -/
structure TargetConfig where
  startup : Option (List Status)
  liveness : Option (List Status)
  readiness : Option (List Status)

/-- Startup-gate loop (src/main.rs lines 88-99): consume the startup
watcher's emissions until the first `Success`. Returns the consumed
emissions and whether the gate passed within them (over the infinite
stream, `false` means the gate is still waiting). -/
def gateConsume : List Status → List Status × Bool
  | [] => ([], false)
  | s :: rest =>
    if s = Status.Success then ([s], true)
    else
      let r := gateConsume rest
      (s :: r.1, r.2)

/-- Liveness-branch loop (src/main.rs lines 101-115): consume the
liveness watcher's emissions until the first `Failure`, which stores
`false` and breaks; `Success` emissions store nothing. Returns the
consumed emissions and the list of values stored to the `liveness`
flag, in order. -/
def livenessBranch : List Status → List Status × List Bool
  | [] => ([], [])
  | s :: rest =>
    if s = Status.Failure then ([s], [false])
    else
      let r := livenessBranch rest
      (s :: r.1, r.2)

/-- Readiness-branch loop (src/main.rs lines 117-132): consume every
emission of the readiness watcher; each `Success` stores `true` and each
`Failure` stores `false`. Returns the list of values stored to the
`readiness` flag, in order. -/
def readinessBranch : List Status → List Bool
  | [] => []
  | Status.Success :: rest => true :: readinessBranch rest
  | Status.Failure :: rest => false :: readinessBranch rest

/-- What one target's orchestration observed and wrote over a finite
trace. -/
structure OrchestrationTrace where
  startupConsumed : List Status
  gatePassed : Bool
  livenessConsumed : List Status
  livenessWrites : List Bool
  readinessConsumed : List Status
  readinessWrites : List Bool
deriving DecidableEq, Repr

/-- Per-target orchestration (src/main.rs lines 87-139): run the startup
gate if a startup probe is configured (no startup probe passes the gate
immediately); only once the gate has passed, run the liveness and
readiness branches (concurrently in the source; they touch disjoint
flags, so each flag's write sequence is interleaving-independent). An
unconfigured liveness probe writes nothing; an unconfigured readiness
probe stores `true` once (src/main.rs line 134). -/
def orchestrate (t : TargetConfig) : OrchestrationTrace :=
  let gate := match t.startup with
    | none => ([], true)
    | some es => gateConsume es
  if gate.2 then
    let lv := match t.liveness with
      | none => ([], [])
      | some es => livenessBranch es
    let rd : List Status × List Bool := match t.readiness with
      | none => ([], [true])
      | some es => (es, readinessBranch es)
    ⟨gate.1, true, lv.1, lv.2, rd.1, rd.2⟩
  else
    ⟨gate.1, false, [], [], [], []⟩

/-- Successive values of the target's `liveness` flag at the observable
points of a trace: the initial value followed by each stored value. -/
def liveTrace (t : TargetConfig) : List Bool :=
  TargetStatus.initial.liveness :: (orchestrate t).livenessWrites

/-- Successive values of the target's `readiness` flag at the observable
points of a trace: the initial value followed by each stored value. -/
def readyTrace (t : TargetConfig) : List Bool :=
  TargetStatus.initial.readiness :: (orchestrate t).readinessWrites

theorem livenessBranch_writes_false (es : List Status) :
    ∀ b ∈ (livenessBranch es).2, b = false := by
  induction es with
  | nil => simp [livenessBranch]
  | cons s rest ih =>
    intro b hb
    simp only [livenessBranch] at hb
    split at hb
    · simpa using hb
    · exact ih b hb

theorem livenessBranch_of_mem (es : List Status)
    (h : Status.Failure ∈ es) :
    livenessBranch es
      = (es.takeWhile (fun s => decide (s ≠ Status.Failure))
          ++ [Status.Failure], [false]) := by
  induction es with
  | nil => simp at h
  | cons s rest ih =>
    cases s with
    | Failure => simp [livenessBranch, List.takeWhile]
    | Success =>
      have h' : Status.Failure ∈ rest := by simpa using h
      simp [livenessBranch, List.takeWhile, ih h']

theorem livenessBranch_of_not_mem (es : List Status)
    (h : Status.Failure ∉ es) :
    livenessBranch es = (es, []) := by
  induction es with
  | nil => simp [livenessBranch]
  | cons s rest ih =>
    cases s with
    | Failure => simp at h
    | Success =>
      have h' : Status.Failure ∉ rest := fun hr => h (List.mem_cons_of_mem _ hr)
      simp [livenessBranch, ih h']

theorem readinessBranch_eq_map (es : List Status) :
    readinessBranch es = es.map (fun s => decide (s = Status.Success)) := by
  induction es with
  | nil => simp [readinessBranch]
  | cons s rest ih => cases s <;> simp [readinessBranch, ih]

theorem orchestrate_liveness_eq (t : TargetConfig) (es : List Status)
    (hl : t.liveness = some es)
    (hg : (orchestrate t).gatePassed = true) :
    (orchestrate t).livenessConsumed = (livenessBranch es).1
      ∧ (orchestrate t).livenessWrites = (livenessBranch es).2 := by
  obtain ⟨su, lv, rd⟩ := t
  simp only at hl
  subst hl
  cases su with
  | none => simp [orchestrate]
  | some ses =>
    by_cases hgate : (gateConsume ses).2 = true
    · simp [orchestrate, hgate]
    · simp [orchestrate, hgate] at hg

theorem orchestrate_readiness_eq (t : TargetConfig) (es : List Status)
    (hr : t.readiness = some es)
    (hg : (orchestrate t).gatePassed = true) :
    (orchestrate t).readinessConsumed = es
      ∧ (orchestrate t).readinessWrites = readinessBranch es := by
  obtain ⟨su, lv, rd⟩ := t
  simp only at hr
  subst hr
  cases su with
  | none => simp [orchestrate]
  | some ses =>
    by_cases hgate : (gateConsume ses).2 = true
    · simp [orchestrate, hgate]
    · simp [orchestrate, hgate] at hg

theorem orchestrate_readiness_none (t : TargetConfig)
    (hr : t.readiness = none) :
    (orchestrate t).readinessWrites
      = if (orchestrate t).gatePassed then [true] else [] := by
  obtain ⟨su, lv, rd⟩ := t
  simp only at hr
  subst hr
  cases su with
  | none => simp [orchestrate]
  | some ses =>
    by_cases hgate : (gateConsume ses).2 = true
    · simp [orchestrate, hgate]
    · simp [orchestrate, hgate]

theorem orchestrate_liveness_none (t : TargetConfig)
    (hl : t.liveness = none) :
    (orchestrate t).livenessWrites = [] := by
  obtain ⟨su, lv, rd⟩ := t
  simp only at hl
  subst hl
  cases su with
  | none => simp [orchestrate]
  | some ses =>
    by_cases hgate : (gateConsume ses).2 = true
    · simp [orchestrate, hgate]
    · simp [orchestrate, hgate]

/-- C3: for a target with a configured liveness probe (in steady state,
i.e. with the startup gate passed), the orchestrator stores `false` to the
live flag at the first `Failure` the liveness watcher emits and stops
consuming there; if no `Failure` has been emitted it consumes everything
and stores nothing (`Success` emissions never change the flag); and every
value ever stored to the live flag is `false`, so once the flag is false
it never becomes true again. -/
theorem liveness_first_failure_latch (t : TargetConfig) (es : List Status)
    (hl : t.liveness = some es)
    (hg : (orchestrate t).gatePassed = true) :
    (Status.Failure ∈ es →
        (orchestrate t).livenessWrites = [false]
        ∧ (orchestrate t).livenessConsumed
            = es.takeWhile (fun s => decide (s ≠ Status.Failure))
              ++ [Status.Failure])
    ∧ (Status.Failure ∉ es →
        (orchestrate t).livenessWrites = []
        ∧ (orchestrate t).livenessConsumed = es)
    ∧ (∀ b ∈ (orchestrate t).livenessWrites, b = false) := by
  obtain ⟨hc, hw⟩ := orchestrate_liveness_eq t es hl hg
  refine ⟨?_, ?_, ?_⟩
  · intro hmem
    rw [hw, hc, livenessBranch_of_mem es hmem]
    exact ⟨rfl, rfl⟩
  · intro hmem
    rw [hw, hc, livenessBranch_of_not_mem es hmem]
    exact ⟨rfl, rfl⟩
  · intro b hb
    rw [hw] at hb
    exact livenessBranch_writes_false es b hb

/-- Witness for `liveness_first_failure_latch`: a gate-free target whose
liveness watcher emitted Success, Failure, Success stores exactly one
`false` and consumed only up to the first Failure. -/
theorem liveness_first_failure_latch_witness :
    (orchestrate
        ⟨none, some [Status.Success, Status.Failure, Status.Success], none⟩
      ).livenessWrites = [false]
    ∧ (orchestrate
        ⟨none, some [Status.Success, Status.Failure, Status.Success], none⟩
      ).livenessConsumed
        = [Status.Success, Status.Failure, Status.Success].takeWhile
            (fun s => decide (s ≠ Status.Failure)) ++ [Status.Failure] :=
  (liveness_first_failure_latch
    ⟨none, some [Status.Success, Status.Failure, Status.Success], none⟩
    [Status.Success, Status.Failure, Status.Success]
    rfl (by decide)).1 (by decide)

/-- C4: for a target with a configured readiness probe (in steady state,
i.e. with the startup gate passed), the orchestrator consumes the entire
emission list of the readiness watcher, and the sequence of values stored
to the ready flag is exactly the emission list mapped
`Success ↦ true, Failure ↦ false`, in the same order and of the same
length — fully reversible, arbitrarily many times. -/
theorem readiness_fully_reversible (t : TargetConfig) (es : List Status)
    (hr : t.readiness = some es)
    (hg : (orchestrate t).gatePassed = true) :
    (orchestrate t).readinessConsumed = es
    ∧ (orchestrate t).readinessWrites
        = es.map (fun s => decide (s = Status.Success))
    ∧ ((orchestrate t).readinessWrites).length = es.length := by
  obtain ⟨hc, hw⟩ := orchestrate_readiness_eq t es hr hg
  refine ⟨hc, ?_, ?_⟩
  · rw [hw, readinessBranch_eq_map]
  · rw [hw, readinessBranch_eq_map, List.length_map]

/-- Witness for `readiness_fully_reversible` on the emission list
Success, Failure, Success. -/
theorem readiness_fully_reversible_witness :
    (orchestrate
        ⟨none, none, some [Status.Success, Status.Failure, Status.Success]⟩
      ).readinessWrites
      = [Status.Success, Status.Failure, Status.Success].map
          (fun s => decide (s = Status.Success)) :=
  (readiness_fully_reversible
    ⟨none, none, some [Status.Success, Status.Failure, Status.Success]⟩
    [Status.Success, Status.Failure, Status.Success]
    rfl (by decide)).2.1

/-- C2 counterexample: a target with no readiness probe configured but
with a startup probe whose watcher has emitted only a `Failure`: the
ready flag is `false` at every observable point of the trace (it starts
at its default `false`, and the store of `true` for an unconfigured
readiness probe is gated behind startup `Success`), refuting the claim
that the ready flag is always true regardless of external state. -/
theorem ready_flag_not_always_true :
    (TargetConfig.mk (some [Status.Failure]) none none).readiness = none
    ∧ ∀ b ∈ readyTrace (TargetConfig.mk (some [Status.Failure]) none none),
        b = false := by decide

/-- C2 amended: a target with no readiness probe never has its ready flag
set false — every stored value is `true`, and once the startup gate
passes the flag is stored `true` exactly once (before that it holds its
default `false`); a target with no liveness probe never has its live flag
set false — nothing is ever stored to it, so it is `true` at every
observable point. -/
theorem unconfigured_probe_defaults (t : TargetConfig) :
    (t.readiness = none →
        (∀ b ∈ (orchestrate t).readinessWrites, b = true)
        ∧ ((orchestrate t).gatePassed = true
            → (orchestrate t).readinessWrites = [true]))
    ∧ (t.liveness = none →
        (orchestrate t).livenessWrites = []
        ∧ ∀ b ∈ liveTrace t, b = true) := by
  constructor
  · intro hr
    have h := orchestrate_readiness_none t hr
    constructor
    · intro b hb
      rw [h] at hb
      split at hb <;> simp_all
    · intro hg
      rw [h, if_pos hg]
  · intro hl
    have h := orchestrate_liveness_none t hl
    refine ⟨h, ?_⟩
    intro b hb
    simp only [liveTrace, h, TargetStatus.initial] at hb
    simpa using hb

/-- Witness for `unconfigured_probe_defaults` on a target with no probes
at all. -/
theorem unconfigured_probe_defaults_witness :
    (orchestrate ⟨none, none, none⟩).readinessWrites = [true]
    ∧ (orchestrate ⟨none, none, none⟩).livenessWrites = [] :=
  ⟨((unconfigured_probe_defaults ⟨none, none, none⟩).1 rfl).2 (by decide),
   ((unconfigured_probe_defaults ⟨none, none, none⟩).2 rfl).1⟩

theorem gateConsume_of_not_mem (es : List Status)
    (h : Status.Success ∉ es) :
    gateConsume es = (es, false) := by
  induction es with
  | nil => rfl
  | cons s rest ih =>
    cases s with
    | Success => simp at h
    | Failure =>
      have h' : Status.Success ∉ rest := fun hr => h (List.mem_cons_of_mem _ hr)
      simp [gateConsume, ih h']

theorem gateConsume_replicate (n : Nat) (rest : List Status) :
    gateConsume (List.replicate n Status.Failure ++ Status.Success :: rest)
      = (List.replicate n Status.Failure ++ [Status.Success], true) := by
  induction n with
  | zero => simp [gateConsume]
  | succ n ih => simp [List.replicate_succ, gateConsume, ih]

/-- C5: while a configured startup probe has emitted no `Success`, the
gate consumes every emission without passing (any number of `Failure`
emissions never aborts it) and neither steady-state branch consumes
anything or stores anything to either flag; as soon as the startup
watcher yields its first `Success` — after arbitrarily many Failures —
the gate passes, consuming exactly through that first `Success`; with no
startup probe the gate passes immediately, consuming nothing. -/
theorem startup_gate_ordering (t : TargetConfig) (es : List Status) :
    (t.startup = some es → Status.Success ∉ es →
        gateConsume es = (es, false)
        ∧ (orchestrate t).gatePassed = false
        ∧ (orchestrate t).livenessConsumed = []
        ∧ (orchestrate t).livenessWrites = []
        ∧ (orchestrate t).readinessConsumed = []
        ∧ (orchestrate t).readinessWrites = [])
    ∧ (∀ (n : Nat) (rest : List Status),
        es = List.replicate n Status.Failure ++ Status.Success :: rest →
        gateConsume es
          = (List.replicate n Status.Failure ++ [Status.Success], true))
    ∧ (t.startup = none →
        (orchestrate t).gatePassed = true
        ∧ (orchestrate t).startupConsumed = []) := by
  refine ⟨?_, ?_, ?_⟩
  · intro hs hmem
    have hgc := gateConsume_of_not_mem es hmem
    obtain ⟨su, lv, rd⟩ := t
    simp only at hs
    subst hs
    refine ⟨hgc, ?_⟩
    simp [orchestrate, hgc]
  · intro n rest hrep
    subst hrep
    exact gateConsume_replicate n rest
  · intro hs
    obtain ⟨su, lv, rd⟩ := t
    simp only at hs
    subst hs
    simp [orchestrate]

/-- Witness for `startup_gate_ordering`: a target whose startup watcher
emitted only Failures has no steady-state activity, and a gate over one
Failure then a Success passes consuming both. -/
theorem startup_gate_ordering_witness :
    (orchestrate
        ⟨some [Status.Failure, Status.Failure],
         some [Status.Success], some [Status.Failure]⟩).readinessWrites = []
    ∧ gateConsume [Status.Failure, Status.Success]
        = ([Status.Failure, Status.Success], true) :=
  ⟨((startup_gate_ordering
      ⟨some [Status.Failure, Status.Failure],
       some [Status.Success], some [Status.Failure]⟩
      [Status.Failure, Status.Failure]).1 rfl (by decide)).2.2.2.2.2,
   by
     have h := (startup_gate_ordering ⟨none, none, none⟩
       [Status.Failure, Status.Success]).2.1 1 [] (by decide)
     simpa using h⟩

/-- Aggregate liveness route handler (src/main.rs lines 50-65): 200 when
every target's live flag is set, 500 (INTERNAL_SERVER_ERROR) otherwise,
recomputed from the current flags on each request. -/
def livenessHandler (targets : List TargetStatus) : Nat :=
  if targets.all (fun s => s.liveness) then 200 else 500

/-- Aggregate readiness route handler (src/main.rs lines 66-81): 200 when
every target's ready flag is set, 503 (SERVICE_UNAVAILABLE) otherwise,
recomputed from the current flags on each request. -/
def readinessHandler (targets : List TargetStatus) : Nat :=
  if targets.all (fun s => s.readiness) then 200 else 503

/-- C6: for every list of targets and every assignment of flags, a
liveness request returns 200 exactly when the conjunction of all targets'
live flags holds and 500 otherwise, and a readiness request returns 200
exactly when the conjunction of all targets' ready flags holds and 503
otherwise; the handlers are pure functions of the flags read at request
time, so each request recomputes the aggregate with no caching. -/
theorem health_endpoints_aggregate (targets : List TargetStatus) :
    (livenessHandler targets = 200 ↔ ∀ s ∈ targets, s.liveness = true)
    ∧ (livenessHandler targets = 500 ↔ ¬∀ s ∈ targets, s.liveness = true)
    ∧ (readinessHandler targets = 200 ↔ ∀ s ∈ targets, s.readiness = true)
    ∧ (readinessHandler targets = 503
        ↔ ¬∀ s ∈ targets, s.readiness = true) := by
  unfold livenessHandler readinessHandler
  by_cases hl : targets.all (fun s => s.liveness) <;>
    by_cases hr : targets.all (fun s => s.readiness) <;>
      simp_all [List.all_eq_true]

/-- C10: with an empty list of targets, both the liveness and the
readiness endpoint return 200, the conjunction over no flags being
vacuously true. -/
theorem empty_targets_healthy :
    livenessHandler [] = 200 ∧ readinessHandler [] = 200 := by decide

/-- Scheduling state of the `Probe::watch` loop (src/probe.rs): the
absolute `deadline` of `struct State` plus the wall clock `now` (a model
variable; instants are Nats). -/
structure LoopState where
  deadline : Nat
  now : Nat
deriving DecidableEq, Repr

/-- One scheduling iteration of the `Probe::watch` loop (src/probe.rs
lines 57-62): `sleep_until(deadline)` moves the clock to at least the
deadline, `deadline += period` advances the absolute deadline, and the
attempt then takes `dur` time units (its duration moves only the clock,
never the deadline). -/
def loopStep (period dur : Nat) (s : LoopState) : LoopState :=
  ⟨s.deadline + period, max s.now s.deadline + dur⟩

/-- The scheduling loop after a list of attempts with the given
durations, starting at instant `start` with the first deadline
`start + initial_delay` (src/probe.rs lines 49-53). -/
def loopRun (start initial_delay period : Nat) (durs : List Nat) :
    LoopState :=
  durs.foldl (fun s d => loopStep period d s) ⟨start + initial_delay, start⟩

theorem loopFoldl_deadline (period : Nat) (durs : List Nat) :
    ∀ s : LoopState,
      (durs.foldl (fun s d => loopStep period d s) s).deadline
        = s.deadline + durs.length * period := by
  induction durs with
  | nil => intro s; simp
  | cons d durs ih =>
    intro s
    rw [List.foldl_cons, ih]
    simp only [loopStep, List.length_cons]
    ring

/-- C8: after any `n` attempts of arbitrary durations, the absolute
deadline at which the watcher begins its (n+1)-th attempt equals the
start instant plus `initial_delay` plus `n` times `period`: the deadline
is advanced by exactly one period per iteration from the previous
absolute deadline and the right-hand side does not mention the attempt
durations, so slow attempts never shift later deadlines. -/
theorem deadline_absolute_arithmetic (start initial_delay period : Nat)
    (durs : List Nat) :
    (loopRun start initial_delay period durs).deadline
      = start + initial_delay + durs.length * period := by
  unfold loopRun
  rw [loopFoldl_deadline]

/-- Raw probe-method configuration as decoded from TOML
(src/probe/de.rs, the inner `enum Method`); headers are opaque
key-value pairs. -/
inductive RawMethod where
  | exec (command : List String)
  | httpGet (host : Option String) (scheme : Option String)
      (path : Option String) (httpHeaders : Option (List (String × String)))
      (port : Option Nat)

/-- Probe method after validation (src/probe.rs, `enum Method`); the URI
is kept as the assembled string. -/
inductive Method where
  | exec (command : String × List String)
  | httpGet (uri : String) (headers : List (String × String))
deriving DecidableEq

/-- Method deserialization (src/probe/de.rs, `Deserialize for Method`):
an empty `exec` command list is rejected; for `http_get` the URI string
is assembled with defaults scheme `http` (lowercased when given), host
`localhost`, path `/`, and a port segment only when given. The
`uri.parse()` of the assembled string belongs to the external `http`
crate and is modelled as accepting. -/
def deserializeMethod : RawMethod → Except String Method
  | RawMethod.exec command =>
    match command with
    | [] => Except.error "invalid length 0, expected one or more"
    | program :: args => Except.ok (Method.exec (program, args))
  | RawMethod.httpGet host scheme path httpHeaders port =>
    Except.ok (Method.httpGet
      ((match scheme with
        | some s => s.toLower
        | none => "http")
        ++ "://"
        ++ host.getD "localhost"
        ++ (match port with
            | some p => ":" ++ toString p
            | none => "")
        ++ path.getD "/")
      (httpHeaders.getD []))

/-- Raw probe configuration as decoded from TOML (src/probe/de.rs, the
inner `struct Probe`): every scalar field optional; durations are whole
seconds. -/
structure RawProbe where
  method : RawMethod
  initial_delay_seconds : Option Nat
  period_seconds : Option Nat
  timeout_seconds : Option Nat
  success_threshold : Option Nat
  failure_threshold : Option Nat

/-- Validated probe (src/probe.rs, `struct Probe`); durations in whole
seconds. -/
structure Probe where
  method : Method
  initial_delay : Nat
  period : Nat
  timeout : Nat
  success_threshold : Nat
  failure_threshold : Nat
deriving DecidableEq

/-- Probe deserialization (src/probe/de.rs, `Deserialize for Probe`):
defaults `initial_delay = 0`, `period = 10`, `timeout = 1`,
`success_threshold = 1`, `failure_threshold = 3` applied by `unwrap_or`;
explicitly supplied values pass through with no range validation. -/
def deserializeProbe (raw : RawProbe) : Except String Probe :=
  match deserializeMethod raw.method with
  | Except.error e => Except.error e
  | Except.ok method =>
    Except.ok
      { method := method
        initial_delay := raw.initial_delay_seconds.getD 0
        period := raw.period_seconds.getD 10
        timeout := raw.timeout_seconds.getD 1
        success_threshold := raw.success_threshold.getD 1
        failure_threshold := raw.failure_threshold.getD 3 }

/-- C9 counterexample: a configuration that explicitly sets
`success_threshold = 0` deserializes without error into a `Probe`
carrying a zero success threshold — deserialization applies
`unwrap_or` defaults but performs no lower-bound validation. -/
theorem zero_threshold_accepted :
    deserializeProbe
        (RawProbe.mk (RawMethod.exec ["true"]) none none none (some 0) none)
      = Except.ok (Probe.mk (Method.exec ("true", [])) 0 10 1 0 3)
    ∧ (Probe.mk (Method.exec ("true", [])) 0 10 1 0 3).success_threshold
        = 0 :=
  ⟨rfl, rfl⟩

theorem deserializeProbe_thresholds (raw : RawProbe) (p : Probe)
    (h : deserializeProbe raw = Except.ok p) :
    p.success_threshold = raw.success_threshold.getD 1
    ∧ p.failure_threshold = raw.failure_threshold.getD 3 := by
  unfold deserializeProbe at h
  cases hm : deserializeMethod raw.method with
  | error e => rw [hm] at h; simp at h
  | ok m =>
    rw [hm] at h
    injection h with h
    subst h
    exact ⟨rfl, rfl⟩

/-- C9 amended: every `Probe` produced by configuration deserialization
whose configuration does not explicitly set a threshold to zero satisfies
`success_threshold ≥ 1` and `failure_threshold ≥ 1`; in particular the
defaults (1 and 3) applied for absent thresholds do. An explicitly
configured zero threshold, however, is carried through unvalidated. -/
theorem threshold_lower_bound (raw : RawProbe) (p : Probe)
    (h : deserializeProbe raw = Except.ok p)
    (hs : raw.success_threshold ≠ some 0)
    (hf : raw.failure_threshold ≠ some 0) :
    1 ≤ p.success_threshold ∧ 1 ≤ p.failure_threshold := by
  obtain ⟨h1, h2⟩ := deserializeProbe_thresholds raw p h
  rw [h1, h2]
  constructor
  · cases hst : raw.success_threshold with
    | none => simp
    | some k =>
      rw [hst] at hs
      simp only [Option.getD_some]
      simp only [ne_eq, Option.some.injEq] at hs
      omega
  · cases hft : raw.failure_threshold with
    | none => simp
    | some k =>
      rw [hft] at hf
      simp only [Option.getD_some]
      simp only [ne_eq, Option.some.injEq] at hf
      omega

/-- Witness for `threshold_lower_bound` on a configuration leaving both
thresholds unset. -/
theorem threshold_lower_bound_witness :
    1 ≤ (Probe.mk (Method.exec ("true", [])) 0 10 1 1 3).success_threshold
    ∧ 1 ≤ Probe.failure_threshold
        (Probe.mk (Method.exec ("true", [])) 0 10 1 1 3) :=
  threshold_lower_bound
    (RawProbe.mk (RawMethod.exec ["true"]) none none none none none)
    (Probe.mk (Method.exec ("true", [])) 0 10 1 1 3)
    rfl (by decide) (by decide)

end Healthzd
